import Mathlib

/-!
A shallow embedding of the two ttbin decoder programs of the repository
(src/ttbin.c, the legacy variant, and src/unnamed/part_000, the current
variant).  The input stream is a list of bytes (naturals below 256);
multi-byte fields are assembled little-endian, matching the packed
structs overlaid on the file bytes on a little-endian host.  Everything
the programs print is modelled as a list of structured output events in
emission order; textual formatting of timestamps and floating-point
values is abstracted into the events (a timestamp event records which
formatter, gmtime or localtime, the code called, together with the raw
epoch seconds; float fields keep their raw 32-bit patterns).
-/

namespace TTBin

/-- Byte i of a decoded payload buffer (0 when out of range; the
decoders only ever index inside the bytes they just read). -/
def byteAt (p : List Nat) (i : Nat) : Nat := p.getD i 0

/-- Little-endian 16-bit field at offset i of a payload. -/
def leU16 (p : List Nat) (i : Nat) : Nat := byteAt p i + 256 * byteAt p (i + 1)

/-- Little-endian 32-bit field at offset i of a payload. -/
def leU32 (p : List Nat) (i : Nat) : Nat :=
  byteAt p i + 256 * byteAt p (i + 1) + 65536 * byteAt p (i + 2) +
    16777216 * byteAt p (i + 3)

/-- Reinterpret a 32-bit unsigned value as the twos-complement signed
int32_t used for latitude and longitude. -/
def toInt32 (n : Nat) : Int :=
  if n < 2147483648 then (n : Int) else (n : Int) - 4294967296

/-- GetActivityType of both variants: the fixed activity name table with
a fallback.  The C parameter has type uint8_t; the truncation of wider
arguments happens at the call sites and is modelled there. -/
def GetActivityType (activity : Nat) : String :=
  match activity with
  | 0 => "Run"
  | 1 => "Cycle"
  | 2 => "Swim"
  | 7 => "Treadmill"
  | n => "Type " ++ toString n

/-- Which time formatter a printed timestamp went through:
GetGMTTime (gmtime) or GetLocalTime (localtime). -/
inductive Clock
  | gmt
  | local
deriving DecidableEq, Repr

/-- One printed output item, in emission order.  Each constructor
corresponds to one printf (or one hex dump) of the C programs. -/
inductive Event
  | headerLine (clock : Clock) (timestamp fileFormat v0 v1 v2 v3 : Nat)
  | recordLengthsLine
  | lapLine (clock : Clock) (time lap : Nat) (activity : String)
  | emptyLine
  | gpsLegacyLine (clock : Clock) (time : Nat) (latitude longitude : Int)
      (speed calories distance u1 u2 u3 u4 : Nat)
  | gpsCurrentLine (clock : Clock) (time : Nat) (latitude longitude : Int)
      (speed calories cycles cumDistanceBits incDistanceBits heading : Nat)
  | noGpsLock
  | r23Line (u1 u2 u3 : Nat)
  | rawDump (bytes : List Nat)
  | tagLabel (tag : Nat)
  | hexDump (cells : List (Option Nat))
  | heartLine (clock : Clock) (time heartRate : Nat)
  | summaryBlock (activity : String) (distance durationShown calories : Nat)
  | treadmillLine (clock : Clock) (time distanceBits calories steps : Nat)
  | swimLine (clock : Clock) (time calories : Nat) (u : List Nat)
  | r35Line (u0 u1 : Nat) (clock : Clock) (time : Nat)
  | unknownTag (tag offset : Nat)
deriving DecidableEq, Repr

/-- The capacity of the local buffer of ReadAndDump in both variants. -/
def readAndDumpBufferCapacity : Nat := 256

/-- The hex cells ReadAndDump prints: for each loop index i below size
the access buffer[i], with none marking an index outside the buffer
contents (an out-of-bounds read). -/
def hexCells (buffer : List Nat) (size : Nat) : List (Option Nat) :=
  (List.range size).map fun i => buffer[i]?

/-- ReadAndDump of both variants: read exactly size bytes from the
stream and hex-dump them; a short read is fatal (none).  On success it
returns the printed cells and the remaining stream. -/
def readAndDump (size : Nat) (stream : List Nat) :
    Option (List (Option Nat) × List Nat) :=
  if size ≤ stream.length then
    some (hexCells (stream.take size) size, stream.drop size)
  else none

/-- The sizes the two programs pass to ReadAndDump, at the call sites
for tags 0x26, 0x30 and 0x37 respectively. -/
def readAndDumpCallSizes : List Nat := [6, 2, 1]

/-- Outcome of handling one tag: either the payload read failed
(ReadStruct or ReadAndDump called exit) after emitting some events, or
the record was handled, emitting events and consuming payload bytes. -/
inductive StepResult
  | fatalStep (events : List Event)
  | okStep (events : List Event) (consumed : Nat)
deriving DecidableEq, Repr

/-- The events a step emitted, whether or not it was fatal. -/
def stepEvents : StepResult → List Event
  | .fatalStep e => e
  | .okStep e _ => e

/-- Outcome of a whole pass: done models reaching end of stream at a
tag boundary (the program returns 0), fatal models exit(-1) from a
short payload read.  Both carry everything printed. -/
inductive RunResult
  | done (events : List Event)
  | fatal (events : List Event)
deriving DecidableEq, Repr

/-- Prefix earlier events onto the result of the rest of the pass. -/
def RunResult.prepend (evs : List Event) : RunResult → RunResult
  | .done e => .done (evs ++ e)
  | .fatal e => .fatal (evs ++ e)

/-- The process exit status: 0 for a clean pass, 255 (the status of
exit(-1)) for a truncation abort. -/
def RunResult.exitCode : RunResult → Nat
  | .done _ => 0
  | .fatal _ => 255

/-- One iteration of the switch of the legacy variant (src/ttbin.c
main): given the tag byte, the stream after the tag and the absolute
offset of the tag byte, decode and render one record.  Payload field
offsets follow the packed structs of src/ttbin.c. -/
def legacyCase (tag : Nat) (rest : List Nat) (off : Nat) : StepResult :=
  if tag = 0x21 then
    if 6 ≤ rest.length then
      let p := rest.take 6
      .okStep [.lapLine .local (leU32 p 2) (byteAt p 0)
        (GetActivityType (byteAt p 1))] 6
    else .fatalStep []
  else if tag = 0x22 then
    if 27 ≤ rest.length then
      let p := rest.take 27
      if leU32 p 14 ≠ 4294967295 then
        .okStep [.emptyLine,
          .gpsLegacyLine .local (leU32 p 14) (toInt32 (leU32 p 0))
            (toInt32 (leU32 p 4)) (leU16 p 10) (leU32 p 18) (leU16 p 24)
            (leU16 p 8) (leU16 p 12) (leU16 p 22) (byteAt p 26),
          .emptyLine] 27
      else .okStep [.emptyLine, .noGpsLock, .emptyLine] 27
    else .fatalStep [.emptyLine]
  else if tag = 0x23 then
    if 19 ≤ rest.length then
      let p := rest.take 19
      .okStep [.r23Line (leU16 p 0) (leU16 p 2) (byteAt p 4), .rawDump p] 19
    else .fatalStep []
  else if tag = 0x25 then
    if 6 ≤ rest.length then
      let p := rest.take 6
      .okStep [.heartLine .gmt (leU32 p 2) (leU16 p 0)] 6
    else .fatalStep []
  else if tag = 0x26 then
    match readAndDump 6 rest with
    | some (cells, _) => .okStep [.tagLabel 0x26, .hexDump cells] 6
    | none => .fatalStep [.tagLabel 0x26]
  else if tag = 0x27 then
    if 16 ≤ rest.length then
      let p := rest.take 16
      .okStep [.summaryBlock (GetActivityType (leU32 p 0 % 256)) (leU32 p 4)
        ((leU32 p 8 + 1) % 4294967296) (leU32 p 12)] 16
    else .fatalStep []
  else if tag = 0x30 then
    match readAndDump 2 rest with
    | some (cells, _) => .okStep [.tagLabel 0x30, .hexDump cells] 2
    | none => .fatalStep [.tagLabel 0x30]
  else if tag = 0x32 then
    if 18 ≤ rest.length then
      let p := rest.take 18
      .okStep [.treadmillLine .gmt (leU32 p 0) (leU32 p 4) (leU32 p 8)
        (leU32 p 12)] 18
    else .fatalStep []
  else if tag = 0x34 then
    if 22 ≤ rest.length then
      let p := rest.take 22
      .okStep [.swimLine .gmt (leU32 p 0) (leU32 p 18) ((p.drop 4).take 14)] 22
    else .fatalStep []
  else if tag = 0x35 then
    if 6 ≤ rest.length then
      let p := rest.take 6
      .okStep [.r35Line (byteAt p 0) (byteAt p 1) .local (leU32 p 2)] 6
    else .fatalStep []
  else if tag = 0x37 then
    match readAndDump 1 rest with
    | some (cells, _) => .okStep [.tagLabel 0x37, .hexDump cells] 1
    | none => .fatalStep [.tagLabel 0x37]
  else
    .okStep [.unknownTag tag off] 0

/-- One iteration of the switch of the current variant
(src/unnamed/part_000 main).  It adds the in-loop Header (0x20) and
record-length table (0x16) cases, uses the current GPS layout, reads
the heart rate as a single byte, and stamps laps with gmtime. -/
def currentCase (tag : Nat) (rest : List Nat) (off : Nat) : StepResult :=
  if tag = 0x20 then
    if 116 ≤ rest.length then
      let p := rest.take 116
      .okStep [.headerLine .gmt (leU32 p 7) (byteAt p 0) (byteAt p 1)
        (byteAt p 2) (byteAt p 3) (byteAt p 4)] 116
    else .fatalStep []
  else if tag = 0x16 then
    if 69 ≤ rest.length then
      .okStep [.recordLengthsLine] 69
    else .fatalStep []
  else if tag = 0x21 then
    if 6 ≤ rest.length then
      let p := rest.take 6
      .okStep [.lapLine .gmt (leU32 p 2) (byteAt p 0)
        (GetActivityType (byteAt p 1))] 6
    else .fatalStep []
  else if tag = 0x22 then
    if 27 ≤ rest.length then
      let p := rest.take 27
      if leU32 p 12 ≠ 4294967295 then
        .okStep [.emptyLine,
          .gpsCurrentLine .local (leU32 p 12) (toInt32 (leU32 p 0))
            (toInt32 (leU32 p 4)) (leU16 p 10) (leU16 p 16) (byteAt p 26)
            (leU32 p 22) (leU32 p 18) (leU16 p 8),
          .emptyLine] 27
      else .okStep [.emptyLine, .noGpsLock, .emptyLine] 27
    else .fatalStep [.emptyLine]
  else if tag = 0x23 then
    if 19 ≤ rest.length then
      let p := rest.take 19
      .okStep [.r23Line (leU16 p 0) (leU16 p 2) (byteAt p 4), .rawDump p] 19
    else .fatalStep []
  else if tag = 0x25 then
    if 6 ≤ rest.length then
      let p := rest.take 6
      .okStep [.heartLine .gmt (leU32 p 2) (byteAt p 0)] 6
    else .fatalStep []
  else if tag = 0x26 then
    match readAndDump 6 rest with
    | some (cells, _) => .okStep [.tagLabel 0x26, .hexDump cells] 6
    | none => .fatalStep [.tagLabel 0x26]
  else if tag = 0x27 then
    if 16 ≤ rest.length then
      let p := rest.take 16
      .okStep [.summaryBlock (GetActivityType (leU32 p 0 % 256)) (leU32 p 4)
        ((leU32 p 8 + 1) % 4294967296) (leU32 p 12)] 16
    else .fatalStep []
  else if tag = 0x30 then
    match readAndDump 2 rest with
    | some (cells, _) => .okStep [.tagLabel 0x30, .hexDump cells] 2
    | none => .fatalStep [.tagLabel 0x30]
  else if tag = 0x32 then
    if 18 ≤ rest.length then
      let p := rest.take 18
      .okStep [.treadmillLine .gmt (leU32 p 0) (leU32 p 4) (leU32 p 8)
        (leU32 p 12)] 18
    else .fatalStep []
  else if tag = 0x34 then
    if 22 ≤ rest.length then
      let p := rest.take 22
      .okStep [.swimLine .gmt (leU32 p 0) (leU32 p 18) ((p.drop 4).take 14)] 22
    else .fatalStep []
  else if tag = 0x35 then
    if 6 ≤ rest.length then
      let p := rest.take 6
      .okStep [.r35Line (byteAt p 0) (byteAt p 1) .local (leU32 p 2)] 6
    else .fatalStep []
  else if tag = 0x37 then
    match readAndDump 1 rest with
    | some (cells, _) => .okStep [.tagLabel 0x37, .hexDump cells] 1
    | none => .fatalStep [.tagLabel 0x37]
  else
    .okStep [.unknownTag tag off] 0

/-- The while(!feof) loop of both variants: read one tag byte, dispatch,
repeat.  The fuel argument only makes the recursion structural; since
every iteration consumes at least the tag byte, fuel equal to the length
of the remaining stream always suffices (the entry points below pass
exactly that, so the fuel-exhausted branch is unreachable).  An empty
stream at a tag boundary returns done, modelling return 0. -/
def pumpLoop (step : Nat → List Nat → Nat → StepResult) :
    Nat → List Nat → Nat → RunResult
  | _, [], _ => .done []
  | 0, _ :: _, _ => .done []
  | fuel + 1, tag :: rest, off =>
    match step tag rest off with
    | .fatalStep evs => .fatal evs
    | .okStep evs consumed =>
      match pumpLoop step fuel (rest.drop consumed) (off + 1 + consumed) with
      | .done evs2 => .done (evs ++ evs2)
      | .fatal evs2 => .fatal (evs ++ evs2)

/-- The whole current program (src/unnamed/part_000) after the file is
opened: the loop starts immediately on byte 0 of the stream. -/
def currentRun (stream : List Nat) : RunResult :=
  pumpLoop currentCase stream.length stream 0

/-- The whole legacy program (src/ttbin.c) after the file is opened:
ReadStruct first consumes the 117-byte Header (exiting fatally when the
file is shorter, with nothing printed), then the loop starts at stream
offset 117. -/
def legacyRun (stream : List Nat) : RunResult :=
  if 117 ≤ stream.length then
    pumpLoop legacyCase (stream.drop 117).length (stream.drop 117) 117
  else .fatal []

/-- Tags that have a matching case in the legacy switch. -/
def legacyKnown (tag : Nat) : Bool :=
  decide (tag = 0x21 ∨ tag = 0x22 ∨ tag = 0x23 ∨ tag = 0x25 ∨ tag = 0x26 ∨
    tag = 0x27 ∨ tag = 0x30 ∨ tag = 0x32 ∨ tag = 0x34 ∨ tag = 0x35 ∨
    tag = 0x37)

/-- Tags that have a matching case in the current switch. -/
def currentKnown (tag : Nat) : Bool :=
  decide (tag = 0x20 ∨ tag = 0x16) || legacyKnown tag

/-- The fixed payload length the legacy variant reads for each known
tag (sizeof of the packed struct, or the ReadAndDump size). -/
def legacyPayloadSize (tag : Nat) : Nat :=
  if tag = 0x21 then 6
  else if tag = 0x22 then 27
  else if tag = 0x23 then 19
  else if tag = 0x25 then 6
  else if tag = 0x26 then 6
  else if tag = 0x27 then 16
  else if tag = 0x30 then 2
  else if tag = 0x32 then 18
  else if tag = 0x34 then 22
  else if tag = 0x35 then 6
  else if tag = 0x37 then 1
  else 0

/-- The fixed payload length the current variant reads for each known
tag. -/
def currentPayloadSize (tag : Nat) : Nat :=
  if tag = 0x20 then 116
  else if tag = 0x16 then 69
  else legacyPayloadSize tag

/-- What each case prints before attempting its payload read: the empty
line of the GPS case and the label of the ReadAndDump cases; nothing
for the other tags.  Identical in both variants. -/
def preEvents (tag : Nat) : List Event :=
  if tag = 0x22 then [.emptyLine]
  else if tag = 0x26 then [.tagLabel 0x26]
  else if tag = 0x30 then [.tagLabel 0x30]
  else if tag = 0x37 then [.tagLabel 0x37]
  else []

/-- The time formatter an event went through, if it holds one. -/
def eventClock : Event → Option Clock
  | .headerLine c _ _ _ _ _ _ => some c
  | .lapLine c _ _ _ => some c
  | .gpsLegacyLine c _ _ _ _ _ _ _ _ _ _ => some c
  | .gpsCurrentLine c _ _ _ _ _ _ _ _ _ => some c
  | .heartLine c _ _ => some c
  | .treadmillLine c _ _ _ _ => some c
  | .swimLine c _ _ _ => some c
  | .r35Line _ _ c _ => some c
  | _ => none

/-- The time formatter the legacy variant uses for a given tag,
extracted from the events its case emits on a representative all-zero
payload (the choice of formatter in the code is a per-tag constant). -/
def legacyTagClock (tag : Nat) : Option Clock :=
  ((stepEvents (legacyCase tag (List.replicate 120 0) 0)).filterMap
    eventClock).head?

/-- The time formatter the current variant uses for a given tag. -/
def currentTagClock (tag : Nat) : Option Clock :=
  ((stepEvents (currentCase tag (List.replicate 120 0) 0)).filterMap
    eventClock).head?

/-- A 117-byte header region whose format marker byte (stream offset 1)
is the unrecognized value 0x99. -/
def c2Header : List Nat := 0x20 :: 0x99 :: List.replicate 115 0

/-- A 27-byte GPS payload whose bytes 14 to 17 are 0xFF: under the
legacy layout its time field (offset 14) is the sentinel, while under
the current layout its time field (offset 12) is 0xFFFF0000. -/
def c2Gps : List Nat :=
  [0, 0, 0, 0, 0, 0, 0, 0, 0, 0, 0, 0, 0, 0,
   255, 255, 255, 255, 0, 0, 0, 0, 0, 0, 0, 0, 0]

/-- Header region with unrecognized marker followed by one GPS record. -/
def c2Stream : List Nat := c2Header ++ 0x22 :: c2Gps

/-- A 27-byte GPS payload whose legacy-layout time field is the no-fix
sentinel 0xFFFFFFFF. -/
def gpsSentinelPayload : List Nat :=
  [0, 0, 0, 0, 0, 0, 0, 0, 0, 0, 0, 0, 0, 0,
   255, 255, 255, 255, 0, 0, 0, 0, 0, 0, 0, 0, 0]

/-- A 16-byte ActivitySummary payload whose raw duration field (offset
8) is 0xFFFFFFFF. -/
def summaryWrapPayload : List Nat :=
  [0, 0, 0, 0, 0, 0, 0, 0, 255, 255, 255, 255, 0, 0, 0, 0]

/-- A 16-byte ActivitySummary payload whose raw duration field is 59. -/
def summary59Payload : List Nat :=
  [0, 0, 0, 0, 0, 0, 0, 0, 59, 0, 0, 0, 0, 0, 0, 0]

/-- A 16-byte ActivitySummary payload whose raw activity type field is
256 (low byte 0). -/
def summary256Payload : List Nat :=
  [0, 1, 0, 0, 0, 0, 0, 0, 0, 0, 0, 0, 0, 0, 0, 0]

/-- A stream that starts directly with a Lap record and contains no
Header anywhere. -/
def lapOnlyStream : List Nat := [0x21, 7, 1, 0, 0, 0, 0]

theorem pumpLoop_nil (step : Nat → List Nat → Nat → StepResult)
    (fuel off : Nat) : pumpLoop step fuel [] off = .done [] := by
  cases fuel <;> rfl

theorem pumpLoop_fatal (step : Nat → List Nat → Nat → StepResult)
    (fuel tag : Nat) (rest : List Nat) (off : Nat) (evs : List Event)
    (h : step tag rest off = .fatalStep evs) :
    pumpLoop step (fuel + 1) (tag :: rest) off = .fatal evs := by
  simp [pumpLoop, h]

theorem pumpLoop_ok (step : Nat → List Nat → Nat → StepResult)
    (fuel tag : Nat) (rest : List Nat) (off : Nat) (evs : List Event)
    (c : Nat) (h : step tag rest off = .okStep evs c) :
    pumpLoop step (fuel + 1) (tag :: rest) off =
      RunResult.prepend evs (pumpLoop step fuel (rest.drop c) (off + 1 + c)) := by
  simp only [pumpLoop, h]
  cases pumpLoop step fuel (rest.drop c) (off + 1 + c) <;>
    simp [RunResult.prepend]

theorem byteAt_lt (p : List Nat) (hb : ∀ x ∈ p, x < 256) (i : Nat) :
    byteAt p i < 256 := by
  unfold byteAt
  by_cases h : i < p.length
  · rw [List.getD_eq_getElem p 0 h]
    exact hb _ (List.getElem_mem h)
  · rw [List.getD_eq_default]
    · omega
    · omega

theorem leU32_lt (p : List Nat) (hb : ∀ x ∈ p, x < 256) (i : Nat) :
    leU32 p i < 4294967296 := by
  have h0 := byteAt_lt p hb i
  have h1 := byteAt_lt p hb (i + 1)
  have h2 := byteAt_lt p hb (i + 2)
  have h3 := byteAt_lt p hb (i + 3)
  unfold leU32
  omega

/-- Claim C1: for every 27-byte GPSFix payload, in both variants, a time
field equal to 0xFFFFFFFF makes the record render exactly as the
no-lock line framed by the two empty lines, with none of the geometry
fields appearing in the output, and the pass continues; a time field
different from 0xFFFFFFFF makes the record render the full line with
the decoded latitude, longitude, speed and the other fields. -/
theorem gps_sentinel_policy (p tail : List Nat) (off fuel : Nat)
    (hp : p.length = 27) :
    (leU32 p 14 = 4294967295 →
      pumpLoop legacyCase (fuel + 1) (0x22 :: (p ++ tail)) off =
        RunResult.prepend [.emptyLine, .noGpsLock, .emptyLine]
          (pumpLoop legacyCase fuel tail (off + 28))) ∧
    (leU32 p 14 ≠ 4294967295 →
      pumpLoop legacyCase (fuel + 1) (0x22 :: (p ++ tail)) off =
        RunResult.prepend
          [.emptyLine,
           .gpsLegacyLine .local (leU32 p 14) (toInt32 (leU32 p 0))
             (toInt32 (leU32 p 4)) (leU16 p 10) (leU32 p 18) (leU16 p 24)
             (leU16 p 8) (leU16 p 12) (leU16 p 22) (byteAt p 26),
           .emptyLine]
          (pumpLoop legacyCase fuel tail (off + 28))) ∧
    (leU32 p 12 = 4294967295 →
      pumpLoop currentCase (fuel + 1) (0x22 :: (p ++ tail)) off =
        RunResult.prepend [.emptyLine, .noGpsLock, .emptyLine]
          (pumpLoop currentCase fuel tail (off + 28))) ∧
    (leU32 p 12 ≠ 4294967295 →
      pumpLoop currentCase (fuel + 1) (0x22 :: (p ++ tail)) off =
        RunResult.prepend
          [.emptyLine,
           .gpsCurrentLine .local (leU32 p 12) (toInt32 (leU32 p 0))
             (toInt32 (leU32 p 4)) (leU16 p 10) (leU16 p 16) (byteAt p 26)
             (leU32 p 22) (leU32 p 18) (leU16 p 8),
           .emptyLine]
          (pumpLoop currentCase fuel tail (off + 28))) := by
  have htake : (p ++ tail).take 27 = p := by rw [← hp]; exact List.take_left p tail
  have hdrop : (p ++ tail).drop 27 = tail := by rw [← hp]; exact List.drop_left p tail
  have hlen : 27 ≤ (p ++ tail).length := by simp [hp]
  have hlen2 : 27 ≤ p.length + tail.length := by omega
  have hoff : off + 1 + 27 = off + 28 := by omega
  refine ⟨fun hs => ?_, fun hs => ?_, fun hs => ?_, fun hs => ?_⟩
  · have hcase : legacyCase 0x22 (p ++ tail) off =
        .okStep [.emptyLine, .noGpsLock, .emptyLine] 27 := by
      simp [legacyCase, hlen, hlen2, htake, hs]
    rw [pumpLoop_ok _ _ _ _ _ _ _ hcase, hdrop, hoff]
  · have hcase : legacyCase 0x22 (p ++ tail) off =
        .okStep [.emptyLine,
          .gpsLegacyLine .local (leU32 p 14) (toInt32 (leU32 p 0))
            (toInt32 (leU32 p 4)) (leU16 p 10) (leU32 p 18) (leU16 p 24)
            (leU16 p 8) (leU16 p 12) (leU16 p 22) (byteAt p 26),
          .emptyLine] 27 := by
      simp [legacyCase, hlen, hlen2, htake, hs]
    rw [pumpLoop_ok _ _ _ _ _ _ _ hcase, hdrop, hoff]
  · have hcase : currentCase 0x22 (p ++ tail) off =
        .okStep [.emptyLine, .noGpsLock, .emptyLine] 27 := by
      simp [currentCase, hlen, hlen2, htake, hs]
    rw [pumpLoop_ok _ _ _ _ _ _ _ hcase, hdrop, hoff]
  · have hcase : currentCase 0x22 (p ++ tail) off =
        .okStep [.emptyLine,
          .gpsCurrentLine .local (leU32 p 12) (toInt32 (leU32 p 0))
            (toInt32 (leU32 p 4)) (leU16 p 10) (leU16 p 16) (byteAt p 26)
            (leU32 p 22) (leU32 p 18) (leU16 p 8),
          .emptyLine] 27 := by
      simp [currentCase, hlen, hlen2, htake, hs]
    rw [pumpLoop_ok _ _ _ _ _ _ _ hcase, hdrop, hoff]

/-- Witness for C1: a concrete sentinel payload renders as the no-lock
frame. -/
theorem gps_sentinel_policy_witness :
    gpsSentinelPayload.length = 27 ∧
    leU32 gpsSentinelPayload 14 = 4294967295 ∧
    pumpLoop legacyCase 1 (0x22 :: (gpsSentinelPayload ++ [])) 117 =
      RunResult.prepend [.emptyLine, .noGpsLock, .emptyLine]
        (pumpLoop legacyCase 0 [] 145) :=
  ⟨by decide, by decide,
   (gps_sentinel_policy gpsSentinelPayload [] 117 0 (by decide)).1 (by decide)⟩

set_option maxRecDepth 20000 in
/-- Claim C2, counterexample: on a stream whose Header format marker
byte (stream offset 1) is the unrecognized value 0x99, the legacy
program still decodes the following GPS record with the legacy layout
(its time field sits at payload offset 14, which here is the sentinel,
so it prints No GPS lock), even though decoding the same record with
the current dialect layout (time at payload offset 12, which here is
not the sentinel) renders a full geometry line, as the run of the
current program on the very same bytes shows.  So an unrecognized
marker is not treated as the current dialect: no dialect selection
from the marker happens at all. -/
theorem dialect_counterexample :
    byteAt c2Stream 1 = 0x99 ∧ (0x99 : Nat) ≠ 5 ∧ (0x99 : Nat) ≠ 7 ∧
    legacyRun c2Stream = .done [.emptyLine, .noGpsLock, .emptyLine] ∧
    leU32 c2Gps 12 ≠ 4294967295 ∧
    currentRun c2Stream = .done
      [.headerLine .gmt 0 0x99 0 0 0 0, .emptyLine,
       .gpsCurrentLine .local 4294901760 0 0 0 65535 0 0 0 0, .emptyLine] := by
  decide

/-- Claim C2, amended: no dialect is selected from the format marker;
each variant has its layout fixed at build time.  The legacy variant
consumes the 117 header bytes blindly, so the whole header content,
marker included, has no effect on how the rest of the stream is
decoded; the current variant decodes the Header as an in-loop record
and uses the marker byte only in the header line it prints, while the
decoding of everything after the header record is independent of the
header payload. -/
theorem dialect_fixed_per_variant :
    (∀ h1 h2 rest : List Nat, h1.length = 117 → h2.length = 117 →
      legacyRun (h1 ++ rest) = legacyRun (h2 ++ rest)) ∧
    (∀ p tail : List Nat, ∀ off fuel : Nat, p.length = 116 →
      pumpLoop currentCase (fuel + 1) (0x20 :: (p ++ tail)) off =
        RunResult.prepend
          [.headerLine .gmt (leU32 p 7) (byteAt p 0) (byteAt p 1) (byteAt p 2)
            (byteAt p 3) (byteAt p 4)]
          (pumpLoop currentCase fuel tail (off + 117))) := by
  constructor
  · intro h1 h2 rest hl1 hl2
    have d1 : (h1 ++ rest).drop 117 = rest := by
      rw [← hl1]; exact List.drop_left h1 rest
    have d2 : (h2 ++ rest).drop 117 = rest := by
      rw [← hl2]; exact List.drop_left h2 rest
    have l1 : 117 ≤ (h1 ++ rest).length := by simp [hl1]
    have l2 : 117 ≤ (h2 ++ rest).length := by simp [hl2]
    rw [legacyRun, legacyRun, if_pos l1, if_pos l2, d1, d2]
  · intro p tail off fuel hp
    have htake : (p ++ tail).take 116 = p := by
      rw [← hp]; exact List.take_left p tail
    have hdrop : (p ++ tail).drop 116 = tail := by
      rw [← hp]; exact List.drop_left p tail
    have hlen2 : 116 ≤ p.length + tail.length := by omega
    have hoff : off + 1 + 116 = off + 117 := by omega
    have hcase : currentCase 0x20 (p ++ tail) off =
        .okStep [.headerLine .gmt (leU32 p 7) (byteAt p 0) (byteAt p 1)
          (byteAt p 2) (byteAt p 3) (byteAt p 4)] 116 := by
      simp [currentCase, hlen2, htake]
    rw [pumpLoop_ok _ _ _ _ _ _ _ hcase, hdrop, hoff]

set_option maxRecDepth 20000 in
/-- Witness for the amended C2. -/
theorem dialect_fixed_per_variant_witness :
    legacyRun (List.replicate 117 0 ++ [0x37, 5]) =
      legacyRun (List.replicate 117 9 ++ [0x37, 5]) ∧
    pumpLoop currentCase 1 (0x20 :: (List.replicate 116 0 ++ [])) 0 =
      RunResult.prepend [.headerLine .gmt 0 0 0 0 0 0]
        (pumpLoop currentCase 0 [] 117) :=
  ⟨dialect_fixed_per_variant.1 (List.replicate 117 0) (List.replicate 117 9)
      [0x37, 5] (by decide) (by decide),
   dialect_fixed_per_variant.2 (List.replicate 116 0) [] 0 0 (by decide)⟩

/-- Claim C3: in both variants, end of stream exactly at a tag boundary
ends the pass as done with exit status 0, while a known tag whose
fixed-length payload has fewer bytes available than required aborts
immediately and fatally: the result is fatal, carries only what that
case printed before its payload read (so no further record is
decoded), and the exit status is nonzero. -/
theorem eof_boundary_vs_truncation :
    (∀ fuel off : Nat,
      pumpLoop legacyCase fuel [] off = .done [] ∧
      pumpLoop currentCase fuel [] off = .done [] ∧
      RunResult.exitCode (.done []) = 0) ∧
    (∀ tag fuel off : Nat, ∀ rest : List Nat, legacyKnown tag = true →
      rest.length < legacyPayloadSize tag →
      pumpLoop legacyCase (fuel + 1) (tag :: rest) off = .fatal (preEvents tag) ∧
      RunResult.exitCode (RunResult.fatal (preEvents tag)) ≠ 0) ∧
    (∀ tag fuel off : Nat, ∀ rest : List Nat, currentKnown tag = true →
      rest.length < currentPayloadSize tag →
      pumpLoop currentCase (fuel + 1) (tag :: rest) off = .fatal (preEvents tag) ∧
      RunResult.exitCode (RunResult.fatal (preEvents tag)) ≠ 0) := by
  refine ⟨fun fuel off => ⟨pumpLoop_nil _ _ _, pumpLoop_nil _ _ _, rfl⟩, ?_, ?_⟩
  · intro tag fuel off rest hk hlen
    refine ⟨?_, by simp [RunResult.exitCode]⟩
    simp only [legacyKnown, decide_eq_true_eq] at hk
    rcases hk with h|h|h|h|h|h|h|h|h|h|h <;> subst h <;>
      simp only [legacyPayloadSize] at hlen <;>
      norm_num at hlen <;>
      refine pumpLoop_fatal _ _ _ _ _ _ ?_ <;>
      first
        | simp [legacyCase, preEvents, readAndDump, Nat.not_le.mpr hlen]
        | (subst hlen; simp [legacyCase, preEvents, readAndDump])
  · intro tag fuel off rest hk hlen
    refine ⟨?_, by simp [RunResult.exitCode]⟩
    simp only [currentKnown, Bool.or_eq_true, decide_eq_true_eq,
      legacyKnown] at hk
    rcases hk with (h|h)|h|h|h|h|h|h|h|h|h|h|h <;> subst h <;>
      simp only [currentPayloadSize, legacyPayloadSize] at hlen <;>
      norm_num at hlen <;>
      refine pumpLoop_fatal _ _ _ _ _ _ ?_ <;>
      first
        | simp [currentCase, preEvents, readAndDump, Nat.not_le.mpr hlen]
        | (subst hlen; simp [currentCase, preEvents, readAndDump])

/-- Witness for C3: end of stream at a tag boundary is a clean done,
and a HeartRate record with only 2 of its 6 payload bytes aborts
fatally with nothing printed for it, in both variants. -/
theorem eof_boundary_vs_truncation_witness :
    pumpLoop legacyCase 5 [] 117 = .done [] ∧
    legacyKnown 0x25 = true ∧
    ([1, 2] : List Nat).length < legacyPayloadSize 0x25 ∧
    pumpLoop legacyCase 1 (0x25 :: [1, 2]) 117 = .fatal (preEvents 0x25) ∧
    RunResult.exitCode (RunResult.fatal (preEvents 0x25)) ≠ 0 ∧
    currentKnown 0x25 = true ∧
    pumpLoop currentCase 1 (0x25 :: [1, 2]) 117 = .fatal (preEvents 0x25) :=
  ⟨(eof_boundary_vs_truncation.1 5 117).1, by decide, by decide,
   (eof_boundary_vs_truncation.2.1 0x25 0 117 [1, 2] (by decide) (by decide)).1,
   (eof_boundary_vs_truncation.2.1 0x25 0 117 [1, 2] (by decide) (by decide)).2,
   by decide,
   (eof_boundary_vs_truncation.2.2 0x25 0 117 [1, 2] (by decide) (by decide)).1⟩

/-- Claim C4: in both variants, a tag byte with no matching case at
stream offset off emits exactly the diagnostic event carrying that tag
value and that offset (the code prints ftell minus 1, the position of
the tag byte), consumes nothing beyond the tag byte, and the pass
continues at offset off plus 1 with the very next byte read as a new
tag. -/
theorem unknown_tag_diagnostic (tag : Nat) (rest : List Nat) (off fuel : Nat) :
    (legacyKnown tag = false →
      pumpLoop legacyCase (fuel + 1) (tag :: rest) off =
        RunResult.prepend [.unknownTag tag off]
          (pumpLoop legacyCase fuel rest (off + 1))) ∧
    (currentKnown tag = false →
      pumpLoop currentCase (fuel + 1) (tag :: rest) off =
        RunResult.prepend [.unknownTag tag off]
          (pumpLoop currentCase fuel rest (off + 1))) := by
  constructor
  · intro hk
    simp only [legacyKnown, decide_eq_false_iff_not] at hk
    push_neg at hk
    obtain ⟨h1, h2, h3, h4, h5, h6, h7, h8, h9, h10, h11⟩ := hk
    have hcase : legacyCase tag rest off = .okStep [.unknownTag tag off] 0 := by
      simp [legacyCase, h1, h2, h3, h4, h5, h6, h7, h8, h9, h10, h11]
    have h := pumpLoop_ok legacyCase fuel tag rest off _ 0 hcase
    simpa using h
  · intro hk
    simp only [currentKnown, Bool.or_eq_false_iff, decide_eq_false_iff_not,
      legacyKnown] at hk
    obtain ⟨hk0, hk1⟩ := hk
    push_neg at hk0 hk1
    obtain ⟨g1, g2⟩ := hk0
    obtain ⟨h1, h2, h3, h4, h5, h6, h7, h8, h9, h10, h11⟩ := hk1
    have hcase : currentCase tag rest off = .okStep [.unknownTag tag off] 0 := by
      simp [currentCase, g1, g2, h1, h2, h3, h4, h5, h6, h7, h8, h9, h10, h11]
    have h := pumpLoop_ok currentCase fuel tag rest off _ 0 hcase
    simpa using h

/-- Witness for C4: the unknown tag 0x99 at offset 117. -/
theorem unknown_tag_diagnostic_witness :
    legacyKnown 0x99 = false ∧ currentKnown 0x99 = false ∧
    pumpLoop legacyCase 1 (0x99 :: []) 117 =
      RunResult.prepend [.unknownTag 0x99 117] (pumpLoop legacyCase 0 [] 118) ∧
    pumpLoop currentCase 1 (0x99 :: []) 117 =
      RunResult.prepend [.unknownTag 0x99 117] (pumpLoop currentCase 0 [] 118) :=
  ⟨by decide, by decide,
   (unknown_tag_diagnostic 0x99 [] 117 0).1 (by decide),
   (unknown_tag_diagnostic 0x99 [] 117 0).2 (by decide)⟩

/-- Claim C5, counterexample: a Summary whose raw 32-bit duration is
0xFFFFFFFF renders duration 0, not the raw value plus one, because the
increment is computed in 32-bit arithmetic and wraps. -/
theorem summary_duration_wrap_counterexample :
    leU32 summaryWrapPayload 8 = 4294967295 ∧
    legacyCase 0x27 summaryWrapPayload 117 =
      .okStep [.summaryBlock "Run" 0 0 0] 16 ∧
    currentCase 0x27 summaryWrapPayload 117 =
      .okStep [.summaryBlock "Run" 0 0 0] 16 ∧
    (0 : Nat) ≠ 4294967295 + 1 := by decide

/-- Claim C5, amended: the rendered duration is the raw 32-bit stored
duration plus one computed modulo 2 to the 32; for every raw value
other than 0xFFFFFFFF this equals the raw value plus 1, in particular
a raw duration of 59 renders as 60. -/
theorem summary_duration_plus_one (p tail : List Nat) (off fuel : Nat)
    (hp : p.length = 16) (hb : ∀ x ∈ p, x < 256)
    (hraw : leU32 p 8 ≠ 4294967295) :
    pumpLoop legacyCase (fuel + 1) (0x27 :: (p ++ tail)) off =
      RunResult.prepend
        [.summaryBlock (GetActivityType (leU32 p 0 % 256)) (leU32 p 4)
          (leU32 p 8 + 1) (leU32 p 12)]
        (pumpLoop legacyCase fuel tail (off + 17)) ∧
    pumpLoop currentCase (fuel + 1) (0x27 :: (p ++ tail)) off =
      RunResult.prepend
        [.summaryBlock (GetActivityType (leU32 p 0 % 256)) (leU32 p 4)
          (leU32 p 8 + 1) (leU32 p 12)]
        (pumpLoop currentCase fuel tail (off + 17)) := by
  have htake : (p ++ tail).take 16 = p := by rw [← hp]; exact List.take_left p tail
  have hdrop : (p ++ tail).drop 16 = tail := by rw [← hp]; exact List.drop_left p tail
  have hlen2 : 16 ≤ p.length + tail.length := by omega
  have hoff : off + 1 + 16 = off + 17 := by omega
  have hmod : (leU32 p 8 + 1) % 4294967296 = leU32 p 8 + 1 := by
    have := leU32_lt p hb 8
    exact Nat.mod_eq_of_lt (by omega)
  constructor
  · have hcase : legacyCase 0x27 (p ++ tail) off =
        .okStep [.summaryBlock (GetActivityType (leU32 p 0 % 256)) (leU32 p 4)
          (leU32 p 8 + 1) (leU32 p 12)] 16 := by
      simp [legacyCase, hlen2, htake, hmod]
    rw [pumpLoop_ok _ _ _ _ _ _ _ hcase, hdrop, hoff]
  · have hcase : currentCase 0x27 (p ++ tail) off =
        .okStep [.summaryBlock (GetActivityType (leU32 p 0 % 256)) (leU32 p 4)
          (leU32 p 8 + 1) (leU32 p 12)] 16 := by
      simp [currentCase, hlen2, htake, hmod]
    rw [pumpLoop_ok _ _ _ _ _ _ _ hcase, hdrop, hoff]

/-- Witness for the amended C5: raw duration 59 renders as 60. -/
theorem summary_duration_plus_one_witness :
    summary59Payload.length = 16 ∧ leU32 summary59Payload 8 = 59 ∧
    pumpLoop legacyCase 1 (0x27 :: (summary59Payload ++ [])) 0 =
      RunResult.prepend [.summaryBlock "Run" 0 60 0]
        (pumpLoop legacyCase 0 [] 17) :=
  ⟨by decide, by decide,
   (summary_duration_plus_one summary59Payload [] 0 0 (by decide) (by decide)
     (by decide)).1⟩

set_option maxRecDepth 4000 in
/-- Claim C6, counterexample: the current program run on a stream that
begins directly with a Lap record and contains no Header at all
decodes that record and exits cleanly, so in that variant the Header
is neither mandatory nor consumed before the main loop. -/
theorem header_first_counterexample :
    currentRun lapOnlyStream = .done [.lapLine .gmt 0 7 "Cycle"] ∧
    RunResult.exitCode (currentRun lapOnlyStream) = 0 := by decide

/-- Claim C6, amended: only the legacy variant consumes the Header
before its loop, and there it is mandatory: a stream shorter than the
117 header bytes dies fatally with nothing printed, and on longer
streams the loop starts exactly at offset 117.  In the current variant
the Header is an ordinary in-loop record (tag 0x20) and a record of
another tag can come first. -/
theorem header_consumption_per_variant :
    (∀ s : List Nat, s.length < 117 → legacyRun s = .fatal []) ∧
    (∀ h rest : List Nat, h.length = 117 →
      legacyRun (h ++ rest) = pumpLoop legacyCase rest.length rest 117) ∧
    (∀ p : List Nat, p.length = 6 →
      currentRun (0x21 :: p) =
        .done [.lapLine .gmt (leU32 p 2) (byteAt p 0)
          (GetActivityType (byteAt p 1))]) := by
  refine ⟨?_, ?_, ?_⟩
  · intro s hs
    rw [legacyRun, if_neg (by omega)]
  · intro h rest hl
    have d : (h ++ rest).drop 117 = rest := by
      rw [← hl]; exact List.drop_left h rest
    have l : 117 ≤ (h ++ rest).length := by simp [hl]
    rw [legacyRun, if_pos l, d]
  · intro p hp
    have hl : (0x21 :: p).length = 6 + 1 := by simp [hp]
    have htake : p.take 6 = p := by rw [← hp]; simp
    have hdrop : p.drop 6 = [] := by rw [← hp]; simp
    have hcase : currentCase 0x21 p 0 =
        .okStep [.lapLine .gmt (leU32 p 2) (byteAt p 0)
          (GetActivityType (byteAt p 1))] 6 := by
      simp [currentCase, htake, hp]
    rw [currentRun, hl, pumpLoop_ok _ _ _ _ _ _ _ hcase, hdrop, pumpLoop_nil]
    simp [RunResult.prepend]

/-- Witness for the amended C6. -/
theorem header_consumption_per_variant_witness :
    legacyRun [1, 2, 3] = .fatal [] ∧
    legacyRun (List.replicate 117 0 ++ [0x37, 5]) =
      pumpLoop legacyCase 2 [0x37, 5] 117 ∧
    currentRun (0x21 :: [7, 1, 0, 0, 0, 0]) =
      .done [.lapLine .gmt 0 7 "Cycle"] :=
  ⟨header_consumption_per_variant.1 [1, 2, 3] (by decide),
   header_consumption_per_variant.2.1 (List.replicate 117 0) [0x37, 5]
     (by decide),
   header_consumption_per_variant.2.2 [7, 1, 0, 0, 0, 0] (by decide)⟩

set_option maxRecDepth 4000 in
/-- Claim C7, counterexample: the Lap tag 0x21 is decoded by both
variants, yet the legacy variant stamps it with localtime and the
current variant with gmtime, so the per-tag time-zone choice is not
reproduced identically across the two variants. -/
theorem lap_clock_counterexample :
    legacyKnown 0x21 = true ∧ currentKnown 0x21 = true ∧
    legacyTagClock 0x21 = some Clock.local ∧
    currentTagClock 0x21 = some Clock.gmt ∧
    some Clock.local ≠ some Clock.gmt := by decide

set_option maxRecDepth 8000 in
/-- Claim C7, amended: for every tag decoded by both variants except
the Lap tag 0x21, the time formatter choice is the same in both
variants (GPS and the 0x35 record use localtime, heart rate, treadmill
and swim use gmtime, and the remaining shared tags print no
timestamp). -/
theorem tag_clock_agreement_except_lap (tag : Nat)
    (hl : legacyKnown tag = true) (hc : currentKnown tag = true)
    (hne : tag ≠ 0x21) :
    legacyTagClock tag = currentTagClock tag := by
  simp only [legacyKnown, decide_eq_true_eq] at hl
  rcases hl with h|h|h|h|h|h|h|h|h|h|h <;> subst h <;>
    first
      | exact absurd rfl hne
      | decide

/-- Witness for the amended C7: the GPS tag. -/
theorem tag_clock_agreement_except_lap_witness :
    legacyKnown 0x22 = true ∧ currentKnown 0x22 = true ∧ (0x22 : Nat) ≠ 0x21 ∧
    legacyTagClock 0x22 = currentTagClock 0x22 :=
  ⟨by decide, by decide, by decide,
   tag_clock_agreement_except_lap 0x22 (by decide) (by decide) (by decide)⟩

/-- Claim C8: the rendered activity name of a Summary depends only on
the low 8 bits of the 32-bit activity type field: the value passed to
GetActivityType is the raw field modulo 256, which for byte-valued
input is exactly the first payload byte. -/
theorem activity_type_low_byte (p tail : List Nat) (off fuel : Nat)
    (hp : p.length = 16) (hb : ∀ x ∈ p, x < 256) :
    leU32 p 0 % 256 = byteAt p 0 ∧
    pumpLoop legacyCase (fuel + 1) (0x27 :: (p ++ tail)) off =
      RunResult.prepend
        [.summaryBlock (GetActivityType (byteAt p 0)) (leU32 p 4)
          ((leU32 p 8 + 1) % 4294967296) (leU32 p 12)]
        (pumpLoop legacyCase fuel tail (off + 17)) ∧
    pumpLoop currentCase (fuel + 1) (0x27 :: (p ++ tail)) off =
      RunResult.prepend
        [.summaryBlock (GetActivityType (byteAt p 0)) (leU32 p 4)
          ((leU32 p 8 + 1) % 4294967296) (leU32 p 12)]
        (pumpLoop currentCase fuel tail (off + 17)) := by
  have h0 := byteAt_lt p hb 0
  have hmod : leU32 p 0 % 256 = byteAt p 0 := by
    unfold leU32
    omega
  have htake : (p ++ tail).take 16 = p := by rw [← hp]; exact List.take_left p tail
  have hdrop : (p ++ tail).drop 16 = tail := by rw [← hp]; exact List.drop_left p tail
  have hlen2 : 16 ≤ p.length + tail.length := by omega
  have hoff : off + 1 + 16 = off + 17 := by omega
  refine ⟨hmod, ?_, ?_⟩
  · have hcase : legacyCase 0x27 (p ++ tail) off =
        .okStep [.summaryBlock (GetActivityType (byteAt p 0)) (leU32 p 4)
          ((leU32 p 8 + 1) % 4294967296) (leU32 p 12)] 16 := by
      simp [legacyCase, hlen2, htake, hmod]
    rw [pumpLoop_ok _ _ _ _ _ _ _ hcase, hdrop, hoff]
  · have hcase : currentCase 0x27 (p ++ tail) off =
        .okStep [.summaryBlock (GetActivityType (byteAt p 0)) (leU32 p 4)
          ((leU32 p 8 + 1) % 4294967296) (leU32 p 12)] 16 := by
      simp [currentCase, hlen2, htake, hmod]
    rw [pumpLoop_ok _ _ _ _ _ _ _ hcase, hdrop, hoff]

/-- Witness for C8: activity type 256 renders as Run, not Type 256. -/
theorem activity_type_low_byte_witness :
    summary256Payload.length = 16 ∧ leU32 summary256Payload 0 = 256 ∧
    leU32 summary256Payload 0 % 256 = byteAt summary256Payload 0 ∧
    pumpLoop currentCase 1 (0x27 :: (summary256Payload ++ [])) 0 =
      RunResult.prepend [.summaryBlock "Run" 0 1 0]
        (pumpLoop currentCase 0 [] 17) :=
  ⟨by decide, by decide,
   (activity_type_low_byte summary256Payload [] 0 0 (by decide) (by decide)).1,
   (activity_type_low_byte summary256Payload [] 0 0 (by decide) (by decide)).2.2⟩

/-- Claim C9: in both variants the 0x22 case emits its empty line
before attempting the GPS payload read, so when the payload is
truncated the fatal result already carries that empty line as the only
output of the aborted record. -/
theorem gps_empty_line_before_read (rest : List Nat) (off fuel : Nat) :
    (stepEvents (legacyCase 0x22 rest off)).head? = some Event.emptyLine ∧
    (stepEvents (currentCase 0x22 rest off)).head? = some Event.emptyLine ∧
    (rest.length < 27 →
      pumpLoop legacyCase (fuel + 1) (0x22 :: rest) off = .fatal [.emptyLine] ∧
      pumpLoop currentCase (fuel + 1) (0x22 :: rest) off = .fatal [.emptyLine]) := by
  refine ⟨?_, ?_, fun hlen => ⟨?_, ?_⟩⟩
  · simp only [legacyCase]
    norm_num
    split_ifs <;> rfl
  · simp only [currentCase]
    norm_num
    split_ifs <;> rfl
  · exact pumpLoop_fatal _ _ _ _ _ _
      (by simp [legacyCase, Nat.not_le.mpr hlen])
  · exact pumpLoop_fatal _ _ _ _ _ _
      (by simp [currentCase, Nat.not_le.mpr hlen])

/-- Witness for C9: with no payload bytes at all, the empty line is
still emitted before the fatal exit. -/
theorem gps_empty_line_before_read_witness :
    (stepEvents (legacyCase 0x22 [] 117)).head? = some Event.emptyLine ∧
    ([] : List Nat).length < 27 ∧
    pumpLoop legacyCase 1 (0x22 :: []) 117 = .fatal [.emptyLine] ∧
    pumpLoop currentCase 1 (0x22 :: []) 117 = .fatal [.emptyLine] :=
  ⟨(gps_empty_line_before_read [] 117 0).1, by decide,
   ((gps_empty_line_before_read [] 117 0).2.2 (by decide)).1,
   ((gps_empty_line_before_read [] 117 0).2.2 (by decide)).2⟩

/-- Claim C10: every size the programs pass to ReadAndDump (6, 2 and 1)
is at most the 256-byte buffer capacity, the error branch is reached
exactly when the stream holds fewer bytes than requested, and on
success every per-byte access of the dump loop lands inside the bytes
that were read (no cell is an out-of-range access). -/
theorem read_and_dump_safety :
    (∀ s ∈ readAndDumpCallSizes, s ≤ readAndDumpBufferCapacity) ∧
    (∀ s ∈ readAndDumpCallSizes, ∀ stream : List Nat,
      (readAndDump s stream = none ↔ stream.length < s) ∧
      (∀ cells rest2, readAndDump s stream = some (cells, rest2) →
        ∀ c ∈ cells, c.isSome = true)) := by
  refine ⟨by decide, ?_⟩
  intro s hs stream
  constructor
  · unfold readAndDump
    split_ifs with h
    · simp
      omega
    · simp
      omega
  · intro cells rest2 h c hc
    unfold readAndDump at h
    split_ifs at h with hle
    simp only [Option.some.injEq, Prod.mk.injEq] at h
    obtain ⟨h1, h2⟩ := h
    subst h1
    unfold hexCells at hc
    simp only [List.mem_map, List.mem_range] at hc
    obtain ⟨i, hi, rfl⟩ := hc
    have hlt : i < (stream.take s).length := by
      simp [List.length_take]
      omega
    rw [List.getElem?_eq_getElem hlt]
    rfl

/-- Witness for C10: size 6 at a short and at an exact stream. -/
theorem read_and_dump_safety_witness :
    (6 : Nat) ≤ readAndDumpBufferCapacity ∧
    (readAndDump 6 [1, 2] = none ↔ ([1, 2] : List Nat).length < 6) ∧
    (∀ c ∈ [some 1, some 2, some 3, some 4, some 5, some 6],
      (c : Option Nat).isSome = true) :=
  ⟨read_and_dump_safety.1 6 (by decide),
   (read_and_dump_safety.2 6 (by decide) [1, 2]).1,
   fun c hc => (read_and_dump_safety.2 6 (by decide) [1, 2, 3, 4, 5, 6]).2
     [some 1, some 2, some 3, some 4, some 5, some 6] [] (by decide) c hc⟩

end TTBin
